import Mathlib

/-!
Verification of the `ds` dataset library (TypeScript) against its
natural-language specification.

The embedding below is a shallow, value-level translation of the source:

* `src/type.ts` — the `Ds` data container: the core store (`DsCore`), the
  JS-array helpers it relies on (`splice`, `indexOf`, stable `sort`), the
  target-resolution helpers (`tidsSort`, `locsSort`, `whichSel`), the
  multi-selection resolver (`multiSelectionLogic`) and the central `rows`
  mutation operation.
* `src/dsm.ts` — the `Dsm` state machine: mode registry, the
  `start`/`submit`/`apply` transitions, `#changeMode`/`#changeState`, and the
  asynchronous `applied` resolution of `#process`.

Modelling conventions:

* JS numbers used as table indices are modelled as `Int` (a negative index can
  arise from `tables.length - 1` on an empty table list); row locations (`Loc`)
  keep `Nat` fields as the source only ever produces non-negative ones there.
* JS object identity (`indexOf` on references) is modelled as the first
  structural match.  The two coincide whenever the row/table values in play are
  pairwise distinct, which every concrete instance below guarantees.
* `structuredClone` is the identity on immutable values, so the `useClone`
  option has no value-level effect and is not a parameter of the embedding.
  The one observable aliasing effect of the *un*-cloned data — the mutation of
  the caller's `Loc` objects in the location-indexed branch — is modelled
  explicitly by `rowsExplicitLocsObjs` further below.
* Fatal `throw`s of the source become `Except.error`; code paths that would
  throw a `TypeError` on malformed input (e.g. indexing a missing table) are
  marked in comments and are unreachable for the valid inputs used here.
* Asynchronous resolution of the `applied` handler is modelled by a separate
  step `Dsm.resolveApplied` applied to the machine state current at resolution
  time, exactly as the `.then`/`.catch` continuations read the instance fields
  at resolution time.
-/

namespace DsSpec

/-- A row location: table index `t`, row index `r` (type.ts `Loc`). -/
structure Loc where
  t : Nat
  r : Nat
deriving DecidableEq

/-- A table identifier, a JS number used as positional index (type.ts `Tid`). -/
abbrev Tid := Int

/-- The externally owned core store (type.ts `DsCore`); the optional
`mode`/`state` fields live in the `Dsm` embedding below. -/
structure DsCore (T : Type) where
  tables : List (List T)
  tablesSel : List Tid
  rowsSel : List Loc
deriving DecidableEq

/-- `Array.prototype.splice(start, deleteCount, ...items)` on an immutable
list: `start` is clamped into `[0, length]` (negative counts from the end),
`deleteCount` past the end is clamped. -/
def jsSplice {α : Type} (l : List α) (start : Int) (deleteCount : Nat) (items : List α) : List α :=
  let len := l.length
  let s : Nat := if start < 0 then ((len : Int) + start).toNat else min start.toNat len
  l.take s ++ items ++ l.drop (s + deleteCount)

/-- `tables[t]` for a JS number index: `undefined` (here `none`) when out of
range or negative. -/
def jsGetTable {T : Type} (tables : List (List T)) (t : Int) : Option (List T) :=
  if t < 0 then none else tables.get? t.toNat

/-- `tables[loc.t]?.[loc.r]` (type.ts `hasRow` lookup). -/
def jsGetRow {T : Type} (tables : List (List T)) (loc : Loc) : Option T :=
  (tables.get? loc.t).bind (fun tb => tb.get? loc.r)

/-- `tables[tid] = tb` for an in-range index; out-of-range writes cannot occur
in the modelled paths. -/
def setTableAt {T : Type} (tables : List (List T)) (i : Int) (tb : List T) : List (List T) :=
  if i < 0 then tables else tables.set i.toNat tb

/-- In-place mutation `f` of the table at index `i`; where the source would
dereference a missing table (and throw), the model leaves `tables` unchanged. -/
def modifyTableAt {T : Type} (tables : List (List T)) (i : Int) (f : List T → List T) :
    List (List T) :=
  match jsGetTable tables i with
  | some tb => setTableAt tables i (f tb)
  | none => tables

/-- type.ts `hasTable`: a table exists at index `t`. -/
def hasTable {T : Type} (tables : List (List T)) (t : Int) : Bool :=
  decide (0 ≤ t ∧ t < (tables.length : Int))

/-- type.ts `hasRow`: a row exists at location `loc`. -/
def hasRow {T : Type} (tables : List (List T)) (loc : Loc) : Bool :=
  (jsGetRow tables loc).isSome

/-- type.ts `isValidTids`: every listed table index is currently valid. -/
def isValidTids {T : Type} (tables : List (List T)) (tids : List Tid) : Bool :=
  tids.all (fun tid => hasTable tables tid)

/-- type.ts `isValidLocs`: every listed row location is currently valid. -/
def isValidLocs {T : Type} (tables : List (List T)) (locs : List Loc) : Bool :=
  locs.all (fun loc => hasRow tables loc)

/-- type.ts `hasTableRef`: `tables.indexOf(ref)`, reference identity modelled
as first structural match. -/
def hasTableRefT {T : Type} [DecidableEq T] (tables : List (List T)) (tb : List T) : Option Nat :=
  tables.findIdx? (fun y => y == tb)

/-- Helper scan for `hasRowRef`, walking tables in order from index `t`. -/
def hasRowRefAux {T : Type} [DecidableEq T] (ts : List (List T)) (row : T) (t : Nat) : Option Loc :=
  match ts with
  | [] => none
  | tb :: rest =>
    match tb.findIdx? (fun y => y == row) with
    | some r => some ⟨t, r⟩
    | none => hasRowRefAux rest row (t + 1)

/-- type.ts `hasRowRef`: scan tables in order, return the first location whose
row matches. -/
def hasRowRefT {T : Type} [DecidableEq T] (tables : List (List T)) (row : T) : Option Loc :=
  hasRowRefAux tables row 0

/-- The comparator of type.ts `locsSort`: lexicographic on `(t, r)`. -/
def locLe (a b : Loc) : Prop :=
  a.t < b.t ∨ (a.t = b.t ∧ a.r ≤ b.r)

instance : DecidableRel locLe := fun a b => by
  unfold locLe
  exact inferInstance

/-- type.ts `locsSort`: stable sort lexicographic on `(t, r)`, optionally
reversed.  JS `Array.prototype.sort` is a stable comparison sort; a stable
insertion sort is an exact model. -/
def locsSort (locs : List Loc) (reverse : Bool) : List Loc :=
  let sorted := List.insertionSort locLe locs
  if reverse then sorted.reverse else sorted

/-- type.ts `tidsSort`: ascending numeric sort, optionally reversed. -/
def tidsSort (l : List Tid) (reverse : Bool) : List Tid :=
  let sorted := List.insertionSort (fun a b : Tid => a ≤ b) l
  if reverse then sorted.reverse else sorted

/-- The `which` option of `rows` (type.ts). -/
inductive Which
  | top
  | all
  | bottom
deriving DecidableEq

/-- The `place` option of `rows` (type.ts). -/
inductive Place
  | newTableAbove
  | above
  | replace
  | below
  | newTableBelow
deriving DecidableEq

/-- The `select` option of `rows` (type.ts): `unspecified` models omitting the
option; the explicit-array cases are tagged, as `typeof select[0]` decides the
branch in the source.  Invalid string values raise a fatal error in the source
and are unrepresentable here. -/
inductive SelectArg
  | unspecified
  | tables
  | rows
  | tids (l : List Tid)
  | locs (l : List Loc)

/-- type.ts `whichSel`: narrow a multi-element target set to its top (first of
the sorted order), bottom (last), or keep it whole.  `.at(sel.length - 1)` on
an empty list yields `undefined` in JS and `none` here. -/
def whichSel {S : Type} (sel : List S) (sortFn : List S → List S) (which : Which) : List S :=
  match which with
  | Which.all => sel
  | Which.top =>
    match (sortFn sel).get? 0 with
    | some item => [item]
    | none => []
  | Which.bottom =>
    match (sortFn sel).get? (sel.length - 1) with
    | some item => [item]
    | none => []

/-- Target resolution of `rows` (type.ts 660-697): produce the table-index
targets and the row-location targets (never both non-empty). -/
def resolveTargets {T : Type} (core : DsCore T) (select : SelectArg) (place : Place) :
    List Tid × List Loc :=
  match select with
  | SelectArg.unspecified =>
    if place = Place.newTableAbove then ([0], [])
    else if place = Place.newTableBelow then ([(core.tables.length : Int) - 1], [])
    else ([], [])
  | SelectArg.tables => (core.tablesSel, [])
  | SelectArg.rows => ([], core.rowsSel)
  | SelectArg.tids l => if 0 < l.length ∧ isValidTids core.tables l then (l, []) else ([], [])
  | SelectArg.locs l => if 0 < l.length ∧ isValidLocs core.tables l then ([], l) else ([], [])

/-- Mutable state threaded through the editing loops of `rows`: the table
collection plus the `#newSelRef` buffers.  Entries that would be `undefined`
references in JS (later dropped by the `indexOf` reconciliation) are `none`. -/
structure MutState (T : Type) where
  tables : List (List T)
  newSelTables : List (Option (List T))
  newSelRows : List (Option T)

/-- The row-insertion loop shared by both branches of `rows`
(`rows.forEach((row, i) => { table.splice(r + i, del, row); push(table[r + i]) })`):
insert (and for `del = 1`, replace) each source row at consecutive positions,
recording the reference stored at each position. -/
def locEditLoop {T : Type} (del : Nat) :
    List T → Nat → List T × List (Option T) → List T × List (Option T)
  | [], _, st => st
  | row :: rest, r, (tb, sel) =>
    let tb1 := jsSplice tb (r : Int) del [row]
    locEditLoop del rest (r + 1) (tb1, sel ++ [tb1.get? r])

/-- One iteration of the table-indexed branch of `rows` (type.ts 730-792). -/
def tableStep {T : Type} (source : Option (List T)) (place : Place)
    (st : MutState T) (tid0 : Tid) : MutState T :=
  match source with
  | some rows =>
    match place with
    | Place.above | Place.replace | Place.below =>
      -- const tableLength = tables[tid]?.length ?? 0; rid = below ? tableLength : 0
      let tableLength := ((jsGetTable st.tables tid0).getD []).length
      let rid := if place = Place.below then tableLength else 0
      -- place === "replace" && (tables[tid].length = 0)
      let tables1 := if place = Place.replace then setTableAt st.tables tid0 [] else st.tables
      match jsGetTable tables1 tid0 with
      | some tb =>
        let res := locEditLoop 0 rows rid (tb, [])
        { tables := setTableAt tables1 tid0 res.1,
          newSelTables := st.newSelTables ++ [some res.1],
          newSelRows := st.newSelRows ++ res.2 }
      | none =>
        -- tables[tid] undefined: with rows = [] the forEach body never runs and
        -- the undefined reference is pushed; with rows ≠ [] the source throws.
        { tables := tables1,
          newSelTables := st.newSelTables ++ [none],
          newSelRows := st.newSelRows }
    | Place.newTableAbove | Place.newTableBelow =>
      -- place === "newTableBelow" && (tid = tid + 1); tables.splice(tid, 0, rows)
      let tid1 := if place = Place.newTableBelow then tid0 + 1 else tid0
      let tables1 := jsSplice st.tables tid1 0 [rows]
      let newTb := jsGetTable tables1 tid1
      { tables := tables1,
        newSelTables := st.newSelTables ++ [newTb],
        newSelRows := st.newSelRows ++ (List.range rows.length).map (fun i => (newTb.getD []).get? i) }
  | none =>
    -- no rows -> deletion
    match place with
    | Place.replace =>
      -- replace = delete table (no selection tracking for the deleted table)
      { st with tables := jsSplice st.tables tid0 1 [] }
    | Place.above =>
      -- above = shift row: tables[tid].splice(0, 1)
      let tables1 := modifyTableAt st.tables tid0 (fun tb => jsSplice tb 0 1 [])
      { tables := tables1,
        newSelTables := st.newSelTables ++ [jsGetTable tables1 tid0],
        newSelRows := st.newSelRows }
    | Place.below =>
      -- below = pop row: tables[tid].splice(tables[tid].length - 1, 1)
      let tables1 := modifyTableAt st.tables tid0 (fun tb => jsSplice tb ((tb.length : Int) - 1) 1 [])
      { tables := tables1,
        newSelTables := st.newSelTables ++ [jsGetTable tables1 tid0],
        newSelRows := st.newSelRows }
    | _ => st

/-- One iteration of the location-indexed branch of `rows` (type.ts 801-821).
`const rows = source ? clone(source) : []` makes an absent source and an empty
source both take the deletion path here. -/
def locStep {T : Type} (source : Option (List T)) (place : Place)
    (st : MutState T) (loc : Loc) : MutState T :=
  let rows := match source with | none => ([] : List T) | some s => s
  if rows.length > 0 then
    -- if (place === "below") loc.r++
    let r0 := if place = Place.below then loc.r + 1 else loc.r
    match st.tables.get? loc.t with
    | some tb =>
      let del := if place = Place.replace then 1 else 0
      let res := locEditLoop del rows r0 (tb, [])
      { tables := st.tables.set loc.t res.1,
        newSelTables := st.newSelTables,
        newSelRows := st.newSelRows ++ res.2 }
    | none => st  -- tables[loc.t] undefined: the source throws; unreachable for valid Locs
  else
    -- del row: tables[loc.t].splice(loc.r, 1)
    match st.tables.get? loc.t with
    | some tb => { st with tables := st.tables.set loc.t (jsSplice tb (loc.r : Int) 1 []) }
    | none => st

/-- type.ts `_updateTableSel`: rebuild `tablesSel` from a buffered reference
list, re-resolving each reference to its current index and dropping the ones
that no longer resolve. -/
def updateTableSel {T : Type} [DecidableEq T] (tables : List (List T))
    (buf : List (Option (List T))) : List Tid :=
  buf.foldl
    (fun acc o =>
      match o with
      | some tb =>
        match hasTableRefT tables tb with
        | some t => acc ++ [(t : Int)]
        | none => acc
      | none => acc)
    []

/-- type.ts `_updateRowSel`: rebuild `rowsSel` from a buffered reference list. -/
def updateRowSel {T : Type} [DecidableEq T] (tables : List (List T))
    (buf : List (Option T)) : List Loc :=
  buf.foldl
    (fun acc o =>
      match o with
      | some row =>
        match hasRowRefT tables row with
        | some loc => acc ++ [loc]
        | none => acc
      | none => acc)
    []

/-- The result of `rows`: the (possibly mutated) core and the success flag. -/
structure RowsResult (T : Type) where
  core : DsCore T
  success : Bool
deriving DecidableEq

/-- Selection reconciliation shared by both exits of `rows` (type.ts 827-832):
pick the new-reference buffers when `changeSel`, else the pre-operation
snapshot, and rebuild both selection lists. -/
def rowsFinish {T : Type} [DecidableEq T] (st : MutState T)
    (oldTables : List (Option (List T))) (oldRows : List (Option T)) (changeSel : Bool) :
    RowsResult T :=
  let bufT := if changeSel then st.newSelTables else oldTables
  let bufR := if changeSel then st.newSelRows else oldRows
  { core :=
      { tables := st.tables,
        tablesSel := updateTableSel st.tables bufT,
        rowsSel := updateRowSel st.tables bufR },
    success := true }

/-- The body of `rows` after target narrowing (type.ts 715-832): snapshot the
selection references, run the table-indexed or location-indexed branch, and
reconcile the selections. -/
def rowsGo {T : Type} [DecidableEq T] (core : DsCore T) (tids : List Tid) (locs : List Loc)
    (source : Option (List T)) (place : Place) (changeSel : Bool) : RowsResult T :=
  -- this._oldSelRef.tables = this.tablesSelRef; this._oldSelRef.rows = this.rowsSelRef
  let oldTables := core.tablesSel.map (fun t => jsGetTable core.tables t)
  let oldRows := core.rowsSel.map (fun loc => jsGetRow core.tables loc)
  if tids.length > 0 then
    let sorted := tidsSort tids true
    rowsFinish (sorted.foldl (tableStep source place) ⟨core.tables, [], []⟩)
      oldTables oldRows changeSel
  else if locs.length > 0 then
    let sorted := locsSort locs true
    let st0 := sorted.foldl (locStep source place) ⟨core.tables, [], []⟩
    -- this._newSelRef.tables.push(...this.tablesSelRef): tablesSel not changed
    let st1 := { st0 with
      newSelTables := st0.newSelTables ++ core.tablesSel.map (fun t => jsGetTable st0.tables t) }
    rowsFinish st1 oldTables oldRows changeSel
  else
    rowsFinish ⟨core.tables, [], []⟩ oldTables oldRows changeSel

/-- type.ts `Ds.rows`, the central mutation operation.  Omitted options are the
`none` arguments; the source defaults are `which ?? "bottom"`,
`place ?? "below"`, `changeSel ?? false`. -/
def Ds.rows {T : Type} [DecidableEq T] (core : DsCore T) (source : Option (List T))
    (select : SelectArg) (which : Option Which) (place : Option Place)
    (changeSel : Option Bool) : RowsResult T :=
  let whichV := which.getD Which.bottom
  let placeV := place.getD Place.below
  let changeSelV := changeSel.getD false
  let p := resolveTargets core select placeV
  if p.1.length > 0 then
    rowsGo core (whichSel p.1 (fun l => tidsSort l false) whichV) [] source placeV changeSelV
  else if p.2.length > 0 then
    rowsGo core [] (whichSel p.2 (fun l => locsSort l false) whichV) source placeV changeSelV
  else
    -- console.log("no target selected or some of tid/loc invalid"); { success: false }
    { core := core, success := false }

/-! ### Multi-selection resolver (type.ts `multiSelectionLogic`, row flavour)

The source function is generic over `Tid | Loc`; the claims exercise the row
flavour, embedded here.  The in-place mutation of `sel` becomes a returned
list. -/

/-- The multi-selection mode: `none` is single-selection. -/
inductive MultiMode
  | additive
  | range
deriving DecidableEq

/-- type.ts `multiSelectionLogic` for row locations. -/
def multiSelectionLogicLoc (index : Loc) (sel : List Loc) (multiMode : Option MultiMode) :
    List Loc :=
  -- const i = sel.findIndex(s => index.t === s.t && index.r === s.r)
  let i := sel.findIdx? (fun s => index.t == s.t && index.r == s.r)
  match multiMode with
  | none =>
    match i with
    | some _ => if sel.length > 1 then [index] else []
    | none => [index]
  | some MultiMode.additive =>
    match i with
    | some j => sel.eraseIdx j
    | none => sel ++ [index]
  | some MultiMode.range =>
    match i with
    | some _ => if sel.length > 1 then [index] else []
    | none =>
      if sel.length = 0 then [index]
      else if sel.length > 1 then [index]
      else
        match sel.get? 0 with
        | some firstLoc =>
          if firstLoc.t = index.t then
            -- for (let r = startRow; r <= endRow; r++) sel.push({ t, r })
            let startRow := min firstLoc.r index.r
            let endRow := max firstLoc.r index.r
            (List.range' startRow (endRow - startRow + 1)).map (fun r => ⟨firstLoc.t, r⟩)
          else [index]
        | none => [index]

/-- type.ts `selectRow` (location flavour): validate the location, then apply
the multi-selection logic to `rowsSel`.  The `sort` option is not passed by
any claim and is omitted. -/
def selectRow {T : Type} (core : DsCore T) (loc : Loc) (multiMode : Option MultiMode) :
    DsCore T × Bool :=
  if hasRow core.tables loc then
    ({ core with rowsSel := multiSelectionLogicLoc loc core.rowsSel multiMode }, true)
  else
    (core, false)

/-! ### The caller-visible mutation of explicit `Loc` targets (type.ts 795-825)

In the source, an explicit `Loc[]` passed as `select` is adopted as the target
list without copying its elements (`locs = select`), `locsSort` copies the
array but not the objects, and the location-indexed branch then executes
`if (place === "below") loc.r++` on each processed object.  The caller's
objects are therefore mutated.  To state this frame effect, the model below
gives each `Loc` object an identity: its position in the caller's array.  The
table mutation performed by each step is word-for-word that of `locStep`; in
addition the array of objects is threaded through and updated where the source
executes `loc.r++`. -/

/-- State for the identity-tracking run of the location-indexed branch: the
table collection, the caller's `Loc` objects (by position), and the
`#newSelRef.rows` buffer. -/
structure LocObjState (T : Type) where
  tables : List (List T)
  objs : List Loc
  newSelRows : List (Option T)

/-- One iteration of the location-indexed branch acting on the object with
identity `id` (a position in the caller's array). -/
def locObjStep {T : Type} (source : Option (List T)) (place : Place)
    (st : LocObjState T) (id : Nat) : LocObjState T :=
  let loc := st.objs.getD id ⟨0, 0⟩
  let rows := match source with | none => ([] : List T) | some s => s
  if rows.length > 0 then
    -- if (place === "below") loc.r++   (mutates the caller's object)
    let loc1 := if place = Place.below then Loc.mk loc.t (loc.r + 1) else loc
    let objs1 := st.objs.set id loc1
    match st.tables.get? loc1.t with
    | some tb =>
      let del := if place = Place.replace then 1 else 0
      let res := locEditLoop del rows loc1.r (tb, [])
      { tables := st.tables.set loc1.t res.1, objs := objs1,
        newSelRows := st.newSelRows ++ res.2 }
    | none => { st with objs := objs1 }
  else
    match st.tables.get? loc.t with
    | some tb => { st with tables := st.tables.set loc.t (jsSplice tb (loc.r : Int) 1 []) }
    | none => st

/-- `locsSort` lifted to object identities: sort positions by the value of the
object they denote (the comparator reads `a.t`/`a.r` of the objects). -/
def locsSortIds (objs : List Loc) (ids : List Nat) (reverse : Bool) : List Nat :=
  let sorted := List.insertionSort (fun i j => locLe (objs.getD i ⟨0, 0⟩) (objs.getD j ⟨0, 0⟩)) ids
  if reverse then sorted.reverse else sorted

/-- `whichSel` lifted to object identities. -/
def whichSelIds (objs : List Loc) (ids : List Nat) (which : Which) : List Nat :=
  whichSel ids (fun l => locsSortIds objs l false) which

/-- `Ds.rows` restricted to the call shape of interest — an explicit `Loc[]`
as `select` — with the caller's objects tracked by identity.  Resolution
(`isValidLocs`, the emptiness test), narrowing and descending processing order
mirror `Ds.rows`; the returned `objs` are the caller's objects after the call. -/
def rowsExplicitLocsObjs {T : Type} (tables : List (List T)) (objs : List Loc)
    (source : Option (List T)) (which : Option Which) (place : Option Place) :
    LocObjState T × Bool :=
  let whichV := which.getD Which.bottom
  let placeV := place.getD Place.below
  if 0 < objs.length ∧ isValidLocs tables objs then
    let ids := List.range objs.length
    let ids1 := whichSelIds objs ids whichV
    if ids1.length > 0 then
      let sortedIds := locsSortIds objs ids1 true
      (sortedIds.foldl (locObjStep source placeV) ⟨tables, objs, []⟩, true)
    else (⟨tables, objs, []⟩, false)
  else (⟨tables, objs, []⟩, false)

/-! ### The mode/state machine (dsm.ts `Dsm`)

Hooks and handlers are side effects; the embedding records each invocation as
an event.  A mode configuration keeps, for each optional callback of
`DsModeConfig`, whether it is configured (`applied?.()`-style optional calls
fire only then).  The payload type of `applied` is fixed to `Nat`. -/

/-- The lifecycle states (type.ts `DsState`). -/
inductive DsState
  | Unknown
  | Normal
  | Starting
  | Submitting
  | Appling
deriving DecidableEq

/-- Which callbacks a registered mode configures (type.ts `DsModeConfig`). -/
structure DsModeConfig where
  applied : Bool
  applySuccess : Bool
  applyFail : Bool
  modeChanged : Bool
  stateChanged : Bool
deriving DecidableEq

/-- Observable side effects of the machine: hook invocations and log lines. -/
inductive DsEvent
  | appliedInvoked (mode : String)
  | applySuccessCalled (mode : String) (data : Option Nat)
  | applyFailCalled (mode : String) (data : Option Nat)
  | rejectionLogged
  | logged (msg : String)
  | modeChangedHook (common : Bool) (ex now : String)
  | stateChangedHook (common : Bool) (mode : String) (ex : DsState) (now : DsState)
deriving DecidableEq

/-- The machine state: the `mode`/`state` fields of the shared core (both
optional in the source), the one-level history `#modeEx`/`#StateEx`, the mode
registry, and whether the instance-wide common hooks are configured. -/
structure Dsm where
  mode : Option String
  state : Option DsState
  modeEx : String
  stateEx : DsState
  modesReg : List (String × DsModeConfig)
  commonModeChanged : Bool
  commonStateChanged : Bool
deriving DecidableEq

/-- `this.#modesReg[mode]`: registry lookup. -/
def lookupMode (reg : List (String × DsModeConfig)) (mode : String) : Option DsModeConfig :=
  (reg.find? (fun p => p.1 == mode)).map (fun p => p.2)

/-- `this.#modesReg[this.core.mode!]` (the mode field may be unset). -/
def Dsm.lookupCur (d : Dsm) : Option DsModeConfig :=
  match d.mode with
  | some m => lookupMode d.modesReg m
  | none => none

/-- dsm.ts `isValidMode`. -/
def Dsm.isValidMode (d : Dsm) (mode : String) : Bool :=
  (lookupMode d.modesReg mode).isSome

/-- The `/^[a-zA-Z0-9_]+$/` mode-name check of `registerMode`. -/
def validModeName (m : String) : Bool :=
  m.length > 0 && m.toList.all (fun c => c.isAlphanum || c == '_')

/-- dsm.ts `registerMode`: duplicate names and invalid names are fatal errors;
with the `config` argument omitted, `config ? (reg[mode] = config) : reg[mode]`
evaluates the bare property read — the registry is left unchanged. -/
def Dsm.registerMode (d : Dsm) (mode : String) (config : Option DsModeConfig) :
    Except String Dsm :=
  if (lookupMode d.modesReg mode).isSome then
    Except.error (mode ++ " cannot register, mode dupicated")
  else if ¬ validModeName mode then
    Except.error (mode ++ " not allowed. Only letters, numbers and underscores are accepted")
  else
    match config with
    | some c => Except.ok { d with modesReg := d.modesReg ++ [(mode, c)] }
    | none => Except.ok d

/-- dsm.ts `#changeMode`: unregistered modes are a fatal error; outside the
`Normal` state only a change to `idle` passes the flow limiter (else log and
return `false`); otherwise record the previous mode, set the new one and fire
the common then the per-mode `modeChanged` hooks. -/
def Dsm.changeMode (d : Dsm) (mode : String) : Except String (Dsm × List DsEvent × Bool) :=
  if ¬ d.isValidMode mode then
    Except.error ("Mode " ++ mode ++ " is not registered.")
  else if mode ≠ "idle" ∧ d.state ≠ some DsState.Normal then
    Except.ok (d, [DsEvent.logged "current status not in Normal state, cannot change mode"], false)
  else
    let modeEx := d.mode.getD "init"
    let d1 := { d with modeEx := modeEx, mode := some mode }
    let evs :=
      (if d1.commonModeChanged then [DsEvent.modeChangedHook true modeEx mode] else [])
      ++ (match lookupMode d1.modesReg mode with
          | some c => if c.modeChanged then [DsEvent.modeChangedHook false modeEx mode] else []
          | none => [])
    Except.ok (d1, evs, true)

/-- dsm.ts `#changeState`: record the previous state, set the new one, fire
the common then the per-mode `stateChanged` hooks, and on entering `Normal`
reset the active mode to `idle`. -/
def Dsm.changeState (d : Dsm) (state : DsState) : Except String (Dsm × List DsEvent) :=
  let stateEx := d.state.getD DsState.Unknown
  let d1 := { d with stateEx := stateEx, state := some state }
  let modeNow := d1.mode.getD "init"
  let evs :=
    (if d1.commonStateChanged then [DsEvent.stateChangedHook true modeNow stateEx state] else [])
    ++ (match lookupMode d1.modesReg modeNow with
        | some c => if c.stateChanged then [DsEvent.stateChangedHook false modeNow stateEx state] else []
        | none => [])
  if state = DsState.Normal then
    match d1.changeMode "idle" with
    | Except.error e => Except.error e
    | Except.ok (d2, evs2, _) => Except.ok (d2, evs ++ evs2)
  else
    Except.ok (d1, evs)

/-- dsm.ts `#process`, synchronous part: with no `applied` handler configured
for the active mode, log and go straight back to `Normal`, returning `false`;
otherwise invoke the handler (its deferred resolution is `resolveApplied`) and
return `true`. -/
def Dsm.process (d : Dsm) : Except String (Dsm × List DsEvent × Bool) :=
  let hasApplied := match d.lookupCur with | some c => c.applied | none => false
  if hasApplied = false then
    match d.changeState DsState.Normal with
    | Except.error e => Except.error e
    | Except.ok (d1, evs) =>
      Except.ok (d1,
        DsEvent.logged "No applied() hook function config, no processing will be done" :: evs,
        false)
  else
    Except.ok (d, [DsEvent.appliedInvoked (d.mode.getD "init")], true)

/-- How the deferred result of the `applied` handler comes back. -/
inductive AppliedOutcome
  | resolvedOutcome (success : Bool) (data : Option Nat)
  | rejectedOutcome
deriving DecidableEq

/-- The `.then`/`.catch` continuations of dsm.ts `#process`, run against the
machine state current at resolution time: on `{success: true}` fire
`applySuccess` and go to `Normal`; on `{success: false}` fire `applyFail` and
revert to the recorded previous state; on rejection log the error and revert
to the recorded previous state (no `applyFail`). -/
def Dsm.resolveApplied (d : Dsm) (outcome : AppliedOutcome) : Except String (Dsm × List DsEvent) :=
  match outcome with
  | AppliedOutcome.resolvedOutcome true data =>
    let ev := match d.lookupCur with
      | some c => if c.applySuccess then [DsEvent.applySuccessCalled (d.mode.getD "init") data] else []
      | none => []
    (d.changeState DsState.Normal).map (fun p => (p.1, ev ++ p.2))
  | AppliedOutcome.resolvedOutcome false data =>
    let ev := match d.lookupCur with
      | some c => if c.applyFail then [DsEvent.applyFailCalled (d.mode.getD "init") data] else []
      | none => []
    (d.changeState d.stateEx).map (fun p => (p.1, ev ++ p.2))
  | AppliedOutcome.rejectedOutcome =>
    (d.changeState d.stateEx).map (fun p => (p.1, DsEvent.rejectionLogged :: p.2))

/-- The `start` sub-options (`"submitted" | "applied"`); an unrecognized token
is a fatal error in the source and unrepresentable here. -/
inductive StartOption
  | submitted
  | applied
deriving DecidableEq

/-- dsm.ts `start`: requires `Normal`, switches the mode, then transitions to
`Starting`, or directly to `Submitting`/`Appling` (the latter starting the
processing). -/
def Dsm.start (d : Dsm) (mode : String) (option : Option StartOption) :
    Except String (Dsm × List DsEvent × Bool) :=
  if d.state ≠ some DsState.Normal then
    Except.ok (d, [DsEvent.logged "Not in Normal mode, cannot goto Starting"], false)
  else
    match d.changeMode mode with
    | Except.error e => Except.error e
    | Except.ok (d1, evs1, validMode) =>
      if ¬ validMode then Except.ok (d1, evs1, false)
      else
        match option with
        | none =>
          (d1.changeState DsState.Starting).map (fun p => (p.1, evs1 ++ p.2, true))
        | some StartOption.submitted =>
          (d1.changeState DsState.Submitting).map (fun p => (p.1, evs1 ++ p.2, true))
        | some StartOption.applied =>
          match d1.changeState DsState.Appling with
          | Except.error e => Except.error e
          | Except.ok (d2, evs2) =>
            match d2.process with
            | Except.error e => Except.error e
            | Except.ok (d3, evs3, _) => Except.ok (d3, evs1 ++ evs2 ++ evs3, true)

/-- The `submit` sub-options (`"cancel" | "applied"`). -/
inductive SubmitOption
  | cancel
  | applied
deriving DecidableEq

/-- dsm.ts `submit`: requires `Starting`; go to `Submitting`, or back to
`Normal` on cancel, or directly to `Appling` with processing. -/
def Dsm.submit (d : Dsm) (option : Option SubmitOption) :
    Except String (Dsm × List DsEvent × Bool) :=
  if d.state ≠ some DsState.Starting then
    Except.ok (d, [DsEvent.logged "invalid state, cannot goto Submitting"], false)
  else
    match option with
    | none => (d.changeState DsState.Submitting).map (fun p => (p.1, p.2, true))
    | some SubmitOption.cancel => (d.changeState DsState.Normal).map (fun p => (p.1, p.2, true))
    | some SubmitOption.applied =>
      match d.changeState DsState.Appling with
      | Except.error e => Except.error e
      | Except.ok (d1, evs1) =>
        match d1.process with
        | Except.error e => Except.error e
        | Except.ok (d2, evs2, _) => Except.ok (d2, evs1 ++ evs2, true)

/-- dsm.ts `apply`: requires `Submitting`; either go to `Appling` and return
the result of `#process`, or on cancel revert to the recorded previous state. -/
def Dsm.apply (d : Dsm) (cancel : Bool) : Except String (Dsm × List DsEvent × Bool) :=
  if d.state ≠ some DsState.Submitting then
    Except.ok (d, [DsEvent.logged "invalid state, cannot goto Appling"], false)
  else if cancel then
    (d.changeState d.stateEx).map (fun p => (p.1, p.2, true))
  else
    match d.changeState DsState.Appling with
    | Except.error e => Except.error e
    | Except.ok (d1, evs1) =>
      match d1.process with
      | Except.error e => Except.error e
      | Except.ok (d2, evs2, processed) => Except.ok (d2, evs1 ++ evs2, processed)

/-- The empty configuration `{}` used for the reserved `idle` mode. -/
def emptyModeConfig : DsModeConfig :=
  { applied := false, applySuccess := false, applyFail := false,
    modeChanged := false, stateChanged := false }

/-- The dsm.ts constructor: register the reserved `idle` mode, then transition
to `Normal` (which also activates `idle`). -/
def Dsm.new (commonModeChanged commonStateChanged : Bool) : Except String (Dsm × List DsEvent) :=
  let d0 : Dsm :=
    { mode := none, state := none, modeEx := "init", stateEx := DsState.Unknown,
      modesReg := [], commonModeChanged := commonModeChanged,
      commonStateChanged := commonStateChanged }
  match d0.registerMode "idle" (some emptyModeConfig) with
  | Except.error e => Except.error e
  | Except.ok d1 => d1.changeState DsState.Normal

/-! ### Concrete scenario used by the failure-rollback claims -/

/-- A mode configuring `applied`, `applySuccess` and `applyFail` handlers. -/
def c2ModeConfig : DsModeConfig :=
  { applied := true, applySuccess := true, applyFail := true,
    modeChanged := false, stateChanged := false }

/-- The normal flow up to processing: construct the machine, register mode
`m`, then `start("m")`, `submit()`, `apply()` — the machine is now in
`Appling`, entered from `Submitting`, with the `applied` handler in flight. -/
def dsmAfterApply : Except String Dsm :=
  (Dsm.new false false).bind (fun p =>
    (p.1.registerMode "m" (some c2ModeConfig)).bind (fun d =>
      (d.start "m" none).bind (fun q =>
        (q.1.submit none).bind (fun r =>
          (r.1.apply false).map (fun s => s.1)))))

/-- A machine exactly as the dsm.ts constructor leaves it (used as a concrete
instance for the registration claims). -/
def dsmFresh : Dsm :=
  { mode := some "idle", state := some DsState.Normal, modeEx := "init",
    stateEx := DsState.Unknown, modesReg := [("idle", emptyModeConfig)],
    commonModeChanged := false, commonStateChanged := false }

/-- The effect of one `loc.r++` on the caller's object array: bump the object
at position `id`. -/
def bumpSet (o : List Loc) (id : Nat) : List Loc :=
  o.set id (Loc.mk (o.getD id ⟨0, 0⟩).t ((o.getD id ⟨0, 0⟩).r + 1))

/-! ## Theorems -/

/-- C1, counterexample.  With two tables both selected and `which` omitted,
a replace-deletion removes only the bottom table (index 1): the call does not
behave as `which: "all"`, which would remove both. -/
theorem c1_counterexample :
    (Ds.rows (⟨[[0], [1]], [0, 1], []⟩ : DsCore Nat) none SelectArg.tables none
        (some Place.replace) none).core.tables = [[0]]
    ∧ (Ds.rows (⟨[[0], [1]], [0, 1], []⟩ : DsCore Nat) none SelectArg.tables (some Which.all)
        (some Place.replace) none).core.tables = []
    ∧ Ds.rows (⟨[[0], [1]], [0, 1], []⟩ : DsCore Nat) none SelectArg.tables none
        (some Place.replace) none
      ≠ Ds.rows (⟨[[0], [1]], [0, 1], []⟩ : DsCore Nat) none SelectArg.tables (some Which.all)
        (some Place.replace) none := by
  decide

/-- C1, amended.  Omitting `which` makes `rows` behave exactly as if
`which: "bottom"` had been passed (the source default `which ?? "bottom"`), so
a multi-element target set is narrowed to the single highest index after
sorting; `"all"` must be passed explicitly to avoid narrowing. -/
theorem c1_theorem :
    (∀ (T : Type) [DecidableEq T] (core : DsCore T) (source : Option (List T))
        (select : SelectArg) (place : Option Place) (changeSel : Option Bool),
      Ds.rows core source select none place changeSel
        = Ds.rows core source select (some Which.bottom) place changeSel)
    ∧ whichSel ([0, 1] : List Tid) (fun l => tidsSort l false) Which.bottom = [1] := by
  constructor
  · intro T _ core source select place changeSel
    rfl
  · decide

/-- C2, counterexample.  After `start("m")`, `submit()`, `apply()` the
`applied` handler is in flight; when it rejects, the machine logs the
rejection and reverts to `Submitting`, but the events show that `applyFail`
is not invoked on this path (it is configured for mode `m`). -/
theorem c2_counterexample :
    (dsmAfterApply.bind (fun d => d.resolveApplied AppliedOutcome.rejectedOutcome)).map
        (fun p => (p.1.state, p.2))
      = Except.ok (some DsState.Submitting, [DsEvent.rejectionLogged]) := by
  rfl

/-- C2, amended.  In the `start/submit/apply` flow, the machine enters
`Appling` from `Submitting`; if `applied` resolves `{success: false, data}`,
`applyFail` is invoked with the payload and the state reverts to `Submitting`
(not `Normal`); if `applied` rejects, the rejection is logged and the state
likewise reverts to `Submitting`, but `applyFail` is not invoked. -/
theorem c2_theorem :
    (∀ data : Option Nat,
      (dsmAfterApply.bind
          (fun d => d.resolveApplied (AppliedOutcome.resolvedOutcome false data))).map
          (fun p => (p.1.state, p.2))
        = Except.ok (some DsState.Submitting, [DsEvent.applyFailCalled "m" data]))
    ∧ (dsmAfterApply.bind (fun d => d.resolveApplied AppliedOutcome.rejectedOutcome)).map
        (fun p => (p.1.state, p.2.filter (fun e => match e with
          | DsEvent.applyFailCalled _ _ => true
          | _ => false)))
      = Except.ok (some DsState.Submitting, [])
    ∧ dsmAfterApply.map (fun d => (d.state, d.stateEx))
      = Except.ok (some DsState.Appling, DsState.Submitting) := by
  refine ⟨fun data => rfl, rfl, rfl⟩

/-- C4.  Whenever target resolution produces no table indices and no row
locations (empty current selection, or an explicit array containing an invalid
identifier), `rows` returns `success: false` with the core — tables and both
selections — completely unchanged. -/
theorem c4_theorem {T : Type} [DecidableEq T] (core : DsCore T) (source : Option (List T))
    (select : SelectArg) (which : Option Which) (place : Place) (changeSel : Option Bool)
    (h : resolveTargets core select place = ([], [])) :
    Ds.rows core source select which (some place) changeSel
      = { core := core, success := false } := by
  unfold Ds.rows
  simp only [Option.getD_some, h]
  rfl

/-- C4, witness: an explicit array with an invalid table index (3, with a
single table present) resolves to no targets, and the call fails without
mutating the core. -/
theorem c4_witness :
    resolveTargets (⟨[[5]], [], []⟩ : DsCore Nat) (SelectArg.tids [3]) Place.replace = ([], [])
    ∧ Ds.rows (⟨[[5]], [], []⟩ : DsCore Nat) none (SelectArg.tids [3]) none (some Place.replace)
        none
      = { core := ⟨[[5]], [], []⟩, success := false } :=
  ⟨by decide, c4_theorem _ _ _ _ _ _ (by decide)⟩

/-- C6.  With tables `[[10],[11],[12]]` and table 2 selected, inserting a new
table above index 0 with the default `changeSel: false` re-resolves the saved
reference: `tablesSel` becomes `[3]` — the index now holding the table that
contains row 12 — not the literal pre-operation index `[2]`. -/
theorem c6_theorem :
    Ds.rows (⟨[[10], [11], [12]], [2], []⟩ : DsCore Nat) (some [99]) (SelectArg.tids [0]) none
        (some Place.newTableAbove) none
      = { core := ⟨[[99], [10], [11], [12]], [3], []⟩, success := true }
    ∧ ([[99], [10], [11], [12]] : List (List Nat)).get? 3 = some [12]
    ∧ ([3] : List Tid) ≠ [2] := by
  decide

/-- C8, counterexample.  Deleting from an empty table through the engine
(source undefined, place `below` or `above`, valid target) does not report
failure: it returns `success: true` and changes nothing — a silent success,
contradicting the claimed `success: false` report. -/
theorem c8_counterexample :
    Ds.rows (⟨[[]], [], []⟩ : DsCore Nat) none (SelectArg.tids [0]) none (some Place.below) none
      = { core := ⟨[[]], [], []⟩, success := true }
    ∧ Ds.rows (⟨[[]], [], []⟩ : DsCore Nat) none (SelectArg.tids [0]) none (some Place.above) none
      = { core := ⟨[[]], [], []⟩, success := true } := by
  decide

/-- C8, amended.  The engine's row-deletion path on an empty table is a silent
no-op returning `success: true`; `rows` reports `success: false` only when no
target resolves, e.g. deleting from an empty table list (explicit index into
no tables, or an empty current table selection).  The `success: false`-plus-log
reporting for popping an empty table belongs to the wrapper helpers
(`shiftRow`/`popRow`), which guard before calling `rows`. -/
theorem c8_theorem :
    Ds.rows (⟨[[]], [], []⟩ : DsCore Nat) none (SelectArg.tids [0]) none (some Place.below) none
      = { core := ⟨[[]], [], []⟩, success := true }
    ∧ Ds.rows (⟨[[]], [], []⟩ : DsCore Nat) none (SelectArg.tids [0]) none (some Place.above) none
      = { core := ⟨[[]], [], []⟩, success := true }
    ∧ Ds.rows (⟨[], [], []⟩ : DsCore Nat) none (SelectArg.tids [0]) none (some Place.replace) none
      = { core := ⟨[], [], []⟩, success := false }
    ∧ Ds.rows (⟨[], [], []⟩ : DsCore Nat) none SelectArg.tables none (some Place.replace) none
      = { core := ⟨[], [], []⟩, success := false } := by
  decide

/-- C10.  For any valid, unregistered mode name, `registerMode` with the
config argument omitted is a silent no-op: no error, the registry is
unchanged, `isValidMode` stays `false`, and a subsequent `start` with that
name throws the not-registered error. -/
theorem c10_theorem (d : Dsm) (m : String) (option : Option StartOption)
    (hname : validModeName m = true) (hreg : lookupMode d.modesReg m = none)
    (hstate : d.state = some DsState.Normal) :
    d.registerMode m none = Except.ok d
    ∧ d.isValidMode m = false
    ∧ d.start m option = Except.error ("Mode " ++ m ++ " is not registered.") := by
  refine ⟨?_, ?_, ?_⟩
  · unfold Dsm.registerMode
    rw [hreg, hname]
    rfl
  · unfold Dsm.isValidMode
    rw [hreg]
    rfl
  · unfold Dsm.start Dsm.changeMode Dsm.isValidMode
    rw [hstate, hreg]
    rfl

/-- C10, witness: on a freshly constructed machine, registering `fetchMode`
without a config changes nothing and `start("fetchMode")` throws. -/
theorem c10_witness :
    validModeName "fetchMode" = true
    ∧ (dsmFresh.registerMode "fetchMode" none = Except.ok dsmFresh
      ∧ dsmFresh.isValidMode "fetchMode" = false
      ∧ dsmFresh.start "fetchMode" none
          = Except.error ("Mode " ++ "fetchMode" ++ " is not registered.")) :=
  ⟨by decide, c10_theorem dsmFresh "fetchMode" none (by decide) (by decide) (by decide)⟩

/-- With an empty source list, one iteration of the location-indexed branch is
the same function as with an absent source: `source ? clone(source) : []`
yields `[]` either way, and `rows.length > 0` fails. -/
theorem locStep_source_empty (T : Type) [DecidableEq T] :
    locStep (T := T) (some []) = locStep (T := T) none := by
  funext place st loc
  rfl

/-- The branch-and-reconcile phase of `rows` with no table targets treats an
empty source list exactly as an absent source. -/
theorem rowsGo_locs_source_empty {T : Type} [DecidableEq T] (core : DsCore T) (locs : List Loc)
    (place : Place) (cs : Bool) :
    rowsGo core [] locs (some []) place cs = rowsGo core [] locs none place cs := by
  unfold rowsGo
  rw [locStep_source_empty]
  simp only [List.length_nil, gt_iff_lt, lt_self_iff_false, if_false]

/-- `List.all` is invariant under permutation. -/
theorem all_congr_perm {α : Type} (p : α → Bool) {l l' : List α} (h : l.Perm l') :
    l.all p = l'.all p := by
  induction h with
  | nil => rfl
  | cons x _ ih => simp [List.all_cons, ih]
  | swap x y l => simp [List.all_cons, Bool.and_left_comm]
  | trans _ _ ih1 ih2 => exact ih1.trans ih2

/-- Two index lists with the same ascending sort are permutations of each
other. -/
theorem tids_sorted_perm {l l' : List Tid}
    (h : tidsSort l false = tidsSort l' false) : l.Perm l' := by
  have h0 : List.insertionSort (fun a b : Tid => a ≤ b) l
      = List.insertionSort (fun a b : Tid => a ≤ b) l' := h
  exact (List.perm_insertionSort _ l).symm.trans
    (by rw [h0]; exact List.perm_insertionSort _ l')

/-- The table-indexed branch of `rows` only consumes its target list through
its length and its descending sort, so target lists with equal sorted order
are interchangeable. -/
theorem rowsGo_tids_congr {T : Type} [DecidableEq T] (core : DsCore T)
    (source : Option (List T)) (place : Place) (cs : Bool) (l l' : List Tid)
    (hsort : tidsSort l true = tidsSort l' true) (hlen : l.length = l'.length) :
    rowsGo core l [] source place cs = rowsGo core l' [] source place cs := by
  unfold rowsGo
  simp only [hsort, hlen]

/-- `rows` on two explicit table-index lists with the same ascending sort
produces identical results: validity, narrowing and the descending processing
order all depend only on the sorted content. -/
theorem rows_tids_congr {T : Type} [DecidableEq T] (core : DsCore T) (source : Option (List T))
    (which : Option Which) (place : Option Place) (changeSel : Option Bool) (l l' : List Tid)
    (h : tidsSort l false = tidsSort l' false) :
    Ds.rows core source (SelectArg.tids l) which place changeSel
      = Ds.rows core source (SelectArg.tids l') which place changeSel := by
  have hp := tids_sorted_perm h
  have hlen : l.length = l'.length := hp.length_eq
  have hvalid : isValidTids core.tables l = isValidTids core.tables l' :=
    all_congr_perm _ hp
  have hsortT : tidsSort l true = tidsSort l' true := by
    have h0 : List.insertionSort (fun a b : Tid => a ≤ b) l
        = List.insertionSort (fun a b : Tid => a ≤ b) l' := h
    show (List.insertionSort (fun a b : Tid => a ≤ b) l).reverse
        = (List.insertionSort (fun a b : Tid => a ≤ b) l').reverse
    rw [h0]
  unfold Ds.rows
  by_cases hc : 0 < l.length ∧ isValidTids core.tables l
  · have hc' : 0 < l'.length ∧ isValidTids core.tables l' := by
      rw [← hlen, ← hvalid]
      exact hc
    simp only [resolveTargets, if_pos hc, if_pos hc']
    rw [if_pos hc.1, if_pos hc'.1]
    cases hw : which.getD Which.bottom with
    | all =>
      simp only [whichSel]
      exact rowsGo_tids_congr _ _ _ _ _ _ hsortT hlen
    | top =>
      simp only [whichSel]
      rw [show tidsSort l false = tidsSort l' false from h]
    | bottom =>
      simp only [whichSel]
      rw [show tidsSort l false = tidsSort l' false from h, hlen]
  · have hc' : ¬(0 < l'.length ∧ isValidTids core.tables l') := by
      rw [← hlen, ← hvalid]
      exact hc
    simp only [resolveTargets, if_neg hc, if_neg hc']

/-- C3.  An absent source signals deletion in both branches, but an empty
source array is asymmetric: in the location-indexed branch `rows` with
`source = []` behaves exactly as with `source` absent (deleting the row at
each target location — concretely, locations `(0,0)` and `(0,2)` of
`[[1,2,3]]` are deleted either way), while in the table-indexed branch an
empty array is treated as provided rows: `above`/`below` insert nothing,
`replace` truncates the table, `newTableAbove`/`newTableBelow` insert a new
empty table — never a deletion, as the contrast with the absent-source call
(which deletes the first row under `above`) shows. -/
theorem c3_theorem :
    (∀ (T : Type) [DecidableEq T] (core : DsCore T) (locsArg : List Loc)
        (which : Option Which) (place : Option Place) (changeSel : Option Bool),
      Ds.rows core (some []) (SelectArg.locs locsArg) which place changeSel
        = Ds.rows core none (SelectArg.locs locsArg) which place changeSel)
    ∧ Ds.rows (⟨[[1, 2, 3]], [], []⟩ : DsCore Nat) (some []) (SelectArg.locs [⟨0, 0⟩, ⟨0, 2⟩])
        (some Which.all) (some Place.below) none
      = { core := ⟨[[2]], [], []⟩, success := true }
    ∧ Ds.rows (⟨[[1, 2, 3]], [], []⟩ : DsCore Nat) none (SelectArg.locs [⟨0, 0⟩, ⟨0, 2⟩])
        (some Which.all) (some Place.below) none
      = { core := ⟨[[2]], [], []⟩, success := true }
    ∧ Ds.rows (⟨[[7, 8], [9]], [], []⟩ : DsCore Nat) (some []) (SelectArg.tids [0]) none
        (some Place.above) none
      = { core := ⟨[[7, 8], [9]], [], []⟩, success := true }
    ∧ Ds.rows (⟨[[7, 8], [9]], [], []⟩ : DsCore Nat) (some []) (SelectArg.tids [0]) none
        (some Place.below) none
      = { core := ⟨[[7, 8], [9]], [], []⟩, success := true }
    ∧ Ds.rows (⟨[[7, 8], [9]], [], []⟩ : DsCore Nat) (some []) (SelectArg.tids [0]) none
        (some Place.replace) none
      = { core := ⟨[[], [9]], [], []⟩, success := true }
    ∧ Ds.rows (⟨[[7, 8], [9]], [], []⟩ : DsCore Nat) (some []) (SelectArg.tids [0]) none
        (some Place.newTableAbove) none
      = { core := ⟨[[], [7, 8], [9]], [], []⟩, success := true }
    ∧ Ds.rows (⟨[[7, 8], [9]], [], []⟩ : DsCore Nat) (some []) (SelectArg.tids [0]) none
        (some Place.newTableBelow) none
      = { core := ⟨[[7, 8], [], [9]], [], []⟩, success := true }
    ∧ Ds.rows (⟨[[7, 8], [9]], [], []⟩ : DsCore Nat) none (SelectArg.tids [0]) none
        (some Place.above) none
      = { core := ⟨[[8], [9]], [], []⟩, success := true } := by
  refine ⟨?_, by decide, by decide, by decide, by decide, by decide, by decide, by decide,
    by decide⟩
  intro T inst core locsArg which place changeSel
  unfold Ds.rows
  by_cases hc : 0 < locsArg.length ∧ isValidLocs core.tables locsArg
  · simp only [resolveTargets, if_pos hc]
    simp only [List.length_nil, gt_iff_lt, lt_self_iff_false, if_false]
    rw [if_pos hc.1, if_pos hc.1, rowsGo_locs_source_empty]
  · simp only [resolveTargets, if_neg hc]
    rfl

/-- C5, counterexample.  The spec example omits `which`, which defaults to
`"bottom"`: `select: [0,2], place: "replace"` with no source narrows the
targets to `[2]` and deletes only table 2, yielding `[[A],[B]]` — for either
input order — not the claimed `[[B]]`. -/
theorem c5_counterexample :
    (Ds.rows (⟨[[0], [1], [2]], [], []⟩ : DsCore Nat) none (SelectArg.tids [0, 2]) none
        (some Place.replace) none).core.tables = [[0], [1]]
    ∧ (Ds.rows (⟨[[0], [1], [2]], [], []⟩ : DsCore Nat) none (SelectArg.tids [2, 0]) none
        (some Place.replace) none).core.tables = [[0], [1]]
    ∧ ([[0], [1]] : List (List Nat)) ≠ [[1]] := by
  decide

/-- C5, amended.  With `which: "all"` (required, since the omitted default is
`"bottom"`), table-indexed targets are processed in descending index order, so
the result is independent of the input order of the explicit target list: any
two explicit lists with equal ascending sort give identical results, and
deleting tables `[0,2]` of `[[A],[B],[C]]` via `place: "replace"` yields
`[[B]]` for either input order. -/
theorem c5_theorem :
    (∀ (T : Type) [DecidableEq T] (core : DsCore T) (source : Option (List T))
        (which : Option Which) (place : Option Place) (changeSel : Option Bool)
        (l l' : List Tid),
      tidsSort l false = tidsSort l' false →
      Ds.rows core source (SelectArg.tids l) which place changeSel
        = Ds.rows core source (SelectArg.tids l') which place changeSel)
    ∧ (Ds.rows (⟨[[0], [1], [2]], [], []⟩ : DsCore Nat) none (SelectArg.tids [0, 2])
        (some Which.all) (some Place.replace) none).core.tables = [[1]]
    ∧ (Ds.rows (⟨[[0], [1], [2]], [], []⟩ : DsCore Nat) none (SelectArg.tids [2, 0])
        (some Which.all) (some Place.replace) none).core.tables = [[1]] := by
  refine ⟨?_, by decide, by decide⟩
  intro T inst core source which place changeSel l l' h
  exact rows_tids_congr core source which place changeSel l l' h

/-- C5, witness: the order-independence component at the spec's concrete
instance. -/
theorem c5_witness :
    tidsSort [0, 2] false = tidsSort [2, 0] false
    ∧ Ds.rows (⟨[[0], [1], [2]], [], []⟩ : DsCore Nat) none (SelectArg.tids [0, 2])
        (some Which.all) (some Place.replace) none
      = Ds.rows (⟨[[0], [1], [2]], [], []⟩ : DsCore Nat) none (SelectArg.tids [2, 0])
        (some Which.all) (some Place.replace) none :=
  ⟨by decide,
    c5_theorem.1 Nat (⟨[[0], [1], [2]], [], []⟩ : DsCore Nat) none (some Which.all)
      (some Place.replace) none [0, 2] [2, 0] (by decide)⟩

/-- C7.  Range selection from a single anchor is symmetric: on a 6-row table,
selecting row `(0,5)` in single mode then `(0,1)` in range mode yields the
five locations `(0,1)`–`(0,5)`, and so does selecting the endpoints in the
opposite order; and whenever the anchor and the target are in different
tables, range selection falls back to just the target. -/
theorem c7_theorem :
    ((selectRow ((selectRow (⟨[[0, 1, 2, 3, 4, 5]], [], []⟩ : DsCore Nat) ⟨0, 5⟩ none).1)
        ⟨0, 1⟩ (some MultiMode.range)).1.rowsSel
      = [⟨0, 1⟩, ⟨0, 2⟩, ⟨0, 3⟩, ⟨0, 4⟩, ⟨0, 5⟩]
    ∧ (selectRow ((selectRow (⟨[[0, 1, 2, 3, 4, 5]], [], []⟩ : DsCore Nat) ⟨0, 1⟩ none).1)
        ⟨0, 5⟩ (some MultiMode.range)).1.rowsSel
      = [⟨0, 1⟩, ⟨0, 2⟩, ⟨0, 3⟩, ⟨0, 4⟩, ⟨0, 5⟩])
    ∧ ∀ a b : Loc, a.t ≠ b.t →
        multiSelectionLogicLoc b [a] (some MultiMode.range) = [b] := by
  refine ⟨by decide, ?_⟩
  intro a b h
  unfold multiSelectionLogicLoc
  have hfind : [a].findIdx? (fun s => b.t == s.t && b.r == s.r) = none := by
    simp [List.findIdx?_cons, h.symm]
  rw [hfind]
  simp [h]

/-- C7, witness: the different-table fallback at anchor `(0,0)` and target
`(1,0)`. -/
theorem c7_witness :
    (⟨0, 0⟩ : Loc).t ≠ (⟨1, 0⟩ : Loc).t
    ∧ multiSelectionLogicLoc ⟨1, 0⟩ [⟨0, 0⟩] (some MultiMode.range) = [⟨1, 0⟩] :=
  ⟨by decide, c7_theorem.2 ⟨0, 0⟩ ⟨1, 0⟩ (by decide)⟩

/-- The object array after one identity-tracking step is the previous array
with the processed object bumped (`loc.r++`), for a non-empty source and
`place: "below"`. -/
theorem locObjStep_objs {T : Type} (s : List T) (hs : 0 < s.length)
    (st : LocObjState T) (id : Nat) :
    (locObjStep (some s) Place.below st id).objs = bumpSet st.objs id := by
  unfold locObjStep bumpSet
  simp only [if_pos hs]
  split
  · simp
  · simp

/-- The object-array component of the identity-tracking fold is the fold of
the bumps. -/
theorem foldl_locObjStep_objs {T : Type} (s : List T) (hs : 0 < s.length) (ids : List Nat) :
    ∀ st : LocObjState T,
      (ids.foldl (locObjStep (some s) Place.below) st).objs = ids.foldl bumpSet st.objs := by
  induction ids with
  | nil =>
    intro st
    rfl
  | cons id rest ih =>
    intro st
    simp only [List.foldl_cons]
    rw [ih, locObjStep_objs s hs]

/-- Folding bumps over a duplicate-free list of positions bumps exactly the
listed positions. -/
theorem foldl_bumpSet_get? (ids : List Nat) (hnd : ids.Nodup) (o : List Loc) (j : Nat) :
    (ids.foldl bumpSet o).get? j =
      if j ∈ ids then (o.get? j).map (fun l => Loc.mk l.t (l.r + 1)) else o.get? j := by
  induction ids generalizing o with
  | nil => simp
  | cons id rest ih =>
    simp only [List.foldl_cons]
    have hnd' := List.nodup_cons.mp hnd
    rw [ih hnd'.2]
    by_cases hj : j ∈ rest
    · rw [if_pos hj, if_pos (List.mem_cons.mpr (Or.inr hj))]
      have hne : id ≠ j := fun he => hnd'.1 (he ▸ hj)
      rw [show (bumpSet o id).get? j = o.get? j from List.get?_set_ne _ _ hne]
    · rw [if_neg hj]
      by_cases hij : j = id
      · subst hij
        rw [if_pos (List.mem_cons.mpr (Or.inl rfl))]
        unfold bumpSet
        rw [List.get?_set_eq]
        cases ho : o.get? j with
        | none => simp [ho]
        | some x =>
          have ho2 : o[j]? = some x := by
            rw [← List.get?_eq_getElem?]
            exact ho
          simp [List.getD, ho, ho2]
      · rw [if_neg (by simp [hij, hj])]
        exact List.get?_set_ne _ _ (fun he => hij he.symm)

/-- C9.  A call to `rows` with an explicit `Loc[]` as `select`, `which: "all"`,
`place: "below"` and a non-empty source mutates the caller's `Loc` objects:
every object's `r` field is incremented by 1, so after the call the caller's
`select` argument no longer denotes the original locations. -/
theorem c9_theorem {T : Type} (tables : List (List T)) (objs : List Loc) (s : List T)
    (hvalid : isValidLocs tables objs = true) (hs : s ≠ []) (hne : objs ≠ []) :
    (rowsExplicitLocsObjs tables objs (some s) (some Which.all) (some Place.below)).1.objs
        = objs.map (fun l => Loc.mk l.t (l.r + 1))
    ∧ (rowsExplicitLocsObjs tables objs (some s) (some Which.all) (some Place.below)).2 = true
    ∧ (rowsExplicitLocsObjs tables objs (some s) (some Which.all) (some Place.below)).1.objs
        ≠ objs := by
  have hlen0 : 0 < objs.length := List.length_pos.mpr hne
  have hs' : 0 < s.length := List.length_pos.mpr hs
  have hrange : (List.range objs.length).length > 0 := by simp [hlen0]
  have hmain :
      (rowsExplicitLocsObjs tables objs (some s) (some Which.all) (some Place.below)).1.objs
        = objs.map (fun l => Loc.mk l.t (l.r + 1)) := by
    unfold rowsExplicitLocsObjs
    rw [if_pos ⟨hlen0, hvalid⟩]
    simp only [whichSelIds, whichSel, Option.getD_some]
    rw [if_pos hrange, foldl_locObjStep_objs s hs']
    have hperm :
        (locsSortIds objs (List.range objs.length) true).Perm (List.range objs.length) := by
      unfold locsSortIds
      simp only [if_pos rfl]
      exact (List.reverse_perm _).trans (List.perm_insertionSort _ _)
    have hnd : (locsSortIds objs (List.range objs.length) true).Nodup :=
      hperm.nodup_iff.mpr (List.nodup_range _)
    apply List.ext_get?_iff.mpr
    intro j
    rw [foldl_bumpSet_get? _ hnd objs j, List.get?_map]
    by_cases hj : j ∈ locsSortIds objs (List.range objs.length) true
    · rw [if_pos hj]
    · rw [if_neg hj]
      have hge : ¬ j < objs.length := fun hlt => hj (hperm.mem_iff.mpr (List.mem_range.mpr hlt))
      rw [List.get?_eq_none.mpr (Nat.le_of_not_lt hge)]
      rfl
  have hsucc :
      (rowsExplicitLocsObjs tables objs (some s) (some Which.all) (some Place.below)).2
        = true := by
    unfold rowsExplicitLocsObjs
    rw [if_pos ⟨hlen0, hvalid⟩]
    simp only [whichSelIds, whichSel, Option.getD_some]
    rw [if_pos hrange]
  refine ⟨hmain, hsucc, ?_⟩
  rw [hmain]
  cases objs with
  | nil => exact absurd rfl hne
  | cons a rest =>
    intro he
    rw [List.map_cons] at he
    have h1 : Loc.mk a.t (a.r + 1) = a := ((List.cons.injEq _ _ _ _).mp he).1
    have h2 := congrArg Loc.r h1
    simp at h2

/-- C9, witness: with tables `[[1,2,3],[4,5]]`, caller objects
`[(0,0),(1,1),(0,2)]` and source `[50]`, the caller's array ends up bumped. -/
theorem c9_witness :
    isValidLocs ([[1, 2, 3], [4, 5]] : List (List Nat)) [⟨0, 0⟩, ⟨1, 1⟩, ⟨0, 2⟩] = true
    ∧ (rowsExplicitLocsObjs ([[1, 2, 3], [4, 5]] : List (List Nat)) [⟨0, 0⟩, ⟨1, 1⟩, ⟨0, 2⟩]
        (some [50]) (some Which.all) (some Place.below)).1.objs
      = ([⟨0, 0⟩, ⟨1, 1⟩, ⟨0, 2⟩] : List Loc).map (fun l => Loc.mk l.t (l.r + 1)) :=
  ⟨by decide,
    (c9_theorem ([[1, 2, 3], [4, 5]] : List (List Nat)) [⟨0, 0⟩, ⟨1, 1⟩, ⟨0, 2⟩] [50]
      (by decide) (by decide) (by decide)).1⟩

end DsSpec
